import Mathlib

/-!
Verification development for the nolang front end (lexer + parser pipeline).

The definitions below are a shallow embedding of `src/nolang/lexer.py` and
`src/nolang/parser.py`.  Source text and token values are modelled as
`List Char` (the source operates on byte strings; every input appearing in
the theorems is ASCII).  The `rply`/`rpython` library behaviour the code
relies on (anchored first-match rule scanning with `re.match`, greedy
quantifiers, the LALR driver with the declared precedence table) is embedded
directly into the corresponding functions.

The AST node classes live in `nolang/astnodes.py`, which is not part of the
sources provided; the `Ast` inductive below is modelled from the spec:
section 3 "DATA MODEL" lists every node and its fields, and the grammar
actions in `parser.py` fix how each node is built.
-/

namespace Nolang

abbrev Str := List Char

/-- Token kinds: the names of `RULES` plus the upper-cased `KEYWORDS` of
`lexer.py`.  `FUNCTION` additionally appears because the grammar in
`parser.py` names a terminal `FUNCTION` in its `function` productions even
though `FUNCTION` is absent from the lexer's `TOKENS` list; we model it as a
token kind that the lexer never produces. -/
inductive TokKind where
  | INTEGER | PLUS | MINUS | LT | STAR | DOT | TRUEDIV | EQ | ASSIGN
  | IDENTIFIER | LEFT_CURLY_BRACE | LEFT_PAREN | RIGHT_PAREN | RIGHT_CURLY_BRACE
  | COMMA | SEMICOLON | STRING
  | DEF | CLASS | RETURN | VAR | WHILE | IF | OR | AND | TRUE | FALSE
  | TRY | EXCEPT | FINALLY | AS | RAISE | IMPORT
  | FUNCTION
  deriving DecidableEq, Repr

/-- `TOKENS = [x[0] for x in RULES] + [x.upper() for x in KEYWORDS]`
(lexer.py line 78).  Note that `FUNCTION` is not an element. -/
def TOKENS : List TokKind :=
  [.INTEGER, .PLUS, .MINUS, .LT, .STAR, .DOT, .TRUEDIV, .EQ, .ASSIGN,
   .IDENTIFIER, .LEFT_CURLY_BRACE, .LEFT_PAREN, .RIGHT_PAREN, .RIGHT_CURLY_BRACE,
   .COMMA, .SEMICOLON, .STRING,
   .DEF, .CLASS, .RETURN, .VAR, .WHILE, .IF, .OR, .AND, .TRUE, .FALSE,
   .TRY, .EXCEPT, .FINALLY, .AS, .RAISE, .IMPORT]

/-- `KEYWORD_DICT` lookup: the matched text of a rule is reclassified to the
upper-cased keyword kind when it is one of `KEYWORDS` (lexer.py 59-80, 242-245). -/
def keywordKind (v : Str) : Option TokKind :=
  if v = "def".toList then some .DEF
  else if v = "class".toList then some .CLASS
  else if v = "return".toList then some .RETURN
  else if v = "var".toList then some .VAR
  else if v = "while".toList then some .WHILE
  else if v = "if".toList then some .IF
  else if v = "or".toList then some .OR
  else if v = "and".toList then some .AND
  else if v = "true".toList then some .TRUE
  else if v = "false".toList then some .FALSE
  else if v = "try".toList then some .TRY
  else if v = "except".toList then some .EXCEPT
  else if v = "finally".toList then some .FINALLY
  else if v = "as".toList then some .AS
  else if v = "raise".toList then some .RAISE
  else if v = "import".toList then some .IMPORT
  else none

/-- `SourceRange` (lexer.py 12-21): half-open byte offsets plus the 1-based
line/column of the start of the range. -/
structure SourceRange where
  start : Nat
  stop : Nat
  lineno : Nat
  colno : Nat
  deriving DecidableEq, Repr

/-- `Token` (lexer.py 7-9 over rply's token): kind, literal value, range. -/
structure Token where
  name : TokKind
  value : Str
  range : SourceRange
  deriving DecidableEq, Repr

/-- Python's `\s` character class over byte strings. -/
def isSpace (c : Char) : Bool :=
  c = ' ' || c = '\t' || c = '\n' || c = '\x0d' || c = '\x0b' || c = '\x0c'

def isIdentStart (c : Char) : Bool := c.isAlpha || c = '_'

def isIdentChar (c : Char) : Bool := c.isAlpha || c.isDigit || c = '_'

def isHexDigit (c : Char) : Bool :=
  c.isDigit || ('a' ≤ c && c ≤ 'f') || ('A' ≤ c && c ≤ 'F')

/-- Number of newline characters in the first `i` characters: the lexer's
`_lineno` bookkeeping (`_update_pos`, lexer.py 103-112) counts newlines over
the consumed spans, which tile the prefix of the input, so the current line
number is always `1 +` this count. -/
def linenoAt (s : Str) (i : Nat) : Nat :=
  1 + (s.take i).count '\n'

/-- 1-based column of offset `i` (`_update_pos`, lexer.py 107-111):
`i + 1` when no newline precedes `i`, else `i - last_nl`. -/
def colnoAt (s : Str) (i : Nat) : Nat :=
  ((s.take i).reverse.takeWhile (fun c => c ≠ '\n')).length + 1

/-- Python `str.splitlines` restricted to `'\n'` line terminators (every
input reaching it in the claims uses only `'\n'`). -/
def splitlines (s : Str) : List Str :=
  if s = [] then []
  else
    let parts := s.splitOn '\n'
    if s.getLast? = some '\n' then parts.dropLast else parts

/-- A lexer diagnostic before the filename is attached (`SRLexerStream.parse_error`,
lexer.py 137-145, constructs `ParseError(msg, line, filename, lineno, colno, colno+1)`;
the filename is the stream's `_filename` and is attached in `lexAll` below).
Column fields are integers: `parse_error` computes `colno = idx - 1` when no
newline precedes `idx`, which is `-1` for an error at offset 0. -/
structure DiagCore where
  msg : Str
  line : Str
  lineno : Nat
  start_colno : Int
  end_colno : Int
  deriving DecidableEq, Repr

/-- `SRLexerStream.parse_error` (lexer.py 137-145) at offset `idx` with the
stream's current line number (which always equals `linenoAt s idx` at the
call sites, see `linenoAt`). -/
def mkLexDiag (msg : Str) (s : Str) (idx : Nat) (lineno : Nat) : DiagCore :=
  let pre := s.take idx
  let colno : Int :=
    if '\n' ∈ pre then ((pre.reverse.takeWhile (fun c => c ≠ '\n')).length : Int)
    else (idx : Int) - 1
  { msg := msg, line := (splitlines s).getD (lineno - 1) [],
    lineno := lineno, start_colno := colno, end_colno := colno + 1 }

/-- An anchored single-character regex such as `\+`: matches exactly when the
next character is `c`. -/
def litRule (c : Char) : Str → Option Str := fun rest =>
  match rest with
  | c' :: _ => if c' = c then some [c] else none
  | [] => none

/-- An anchored two-character regex such as `//` or `==`. -/
def twoCharRule (a b : Char) : Str → Option Str := fun rest =>
  match rest with
  | x :: y :: _ => if x = a ∧ y = b then some [a, b] else none
  | _ => none

/-- The greedy anchored `\d+`. -/
def digitRule : Str → Option Str := fun rest =>
  match rest with
  | c :: _ => if c.isDigit then some (rest.takeWhile Char.isDigit) else none
  | [] => none

/-- The greedy anchored `[a-zA-Z_][a-zA-Z0-9_]*`. -/
def identRule : Str → Option Str := fun rest =>
  match rest with
  | c :: _ => if isIdentStart c then some (rest.takeWhile isIdentChar) else none
  | [] => none

/-- `RULES` (lexer.py 39-57): the ordered (kind, pattern) table of the main
lexer.  Order encodes priority: `//` before `==` before `=`, exactly as
declared. -/
def RULES : List (TokKind × (Str → Option Str)) :=
  [(.INTEGER, digitRule), (.PLUS, litRule '+'), (.MINUS, litRule '-'),
   (.LT, litRule '<'), (.STAR, litRule '*'), (.DOT, litRule '.'),
   (.TRUEDIV, twoCharRule '/' '/'), (.EQ, twoCharRule '=' '='),
   (.ASSIGN, litRule '='), (.IDENTIFIER, identRule),
   (.LEFT_CURLY_BRACE, litRule '{'), (.LEFT_PAREN, litRule '('),
   (.RIGHT_PAREN, litRule ')'), (.RIGHT_CURLY_BRACE, litRule '}'),
   (.COMMA, litRule ','), (.SEMICOLON, litRule ';'), (.STRING, litRule '"')]

/-- The generic rule engine shared by both lexer levels: try each anchored
rule in table order at the current offset and return the first match
(rply's rule loop, lexer.py 126-133 / 232-248). -/
def firstMatch {κ : Type} : List (κ × (Str → Option Str)) → Str → Option (κ × Str)
  | [], _ => none
  | (k, m) :: rs, rest =>
    match m rest with
    | some text => some (k, text)
    | none => firstMatch rs rest

/-- First-match scanning of `RULES` at the head of `rest`. -/
def matchRule (rest : Str) : Option (TokKind × Str) := firstMatch RULES rest

/-- The rule names of `STRING_RULES` (lexer.py 83-93). -/
inductive StrKind where
  | escQuote | escEsc | escSimple | escHex8 | escHex16 | escHexAny
  | escUnrec | char | closing
  deriving DecidableEq, Repr

/-- Characters excluded by the `ESC_UNRECOGNISED` rule `\\[^abfnrtv0xu"\\]`. -/
def escExcluded : List Char := ['a', 'b', 'f', 'n', 'r', 't', 'v', '0', 'x', 'u', '"', '\\']

/-- `\\[abfnrtv0]`. -/
def escSimpleRule : Str → Option Str := fun rest =>
  match rest with
  | x :: y :: _ =>
    if x = '\\' ∧ y ∈ ['a', 'b', 'f', 'n', 'r', 't', 'v', '0'] then some ['\\', y] else none
  | _ => none

/-- `\\x[0-9a-fA-F]{2}`. -/
def escHex8Rule : Str → Option Str := fun rest =>
  match rest with
  | x :: u :: h1 :: h2 :: _ =>
    if x = '\\' ∧ u = 'x' ∧ isHexDigit h1 ∧ isHexDigit h2 then
      some ['\\', 'x', h1, h2]
    else none
  | _ => none

/-- `\\u[0-9a-fA-F]{4}`. -/
def escHex16Rule : Str → Option Str := fun rest =>
  match rest with
  | x :: u :: h1 :: h2 :: h3 :: h4 :: _ =>
    if x = '\\' ∧ u = 'u' ∧ isHexDigit h1 ∧ isHexDigit h2 ∧ isHexDigit h3 ∧ isHexDigit h4 then
      some ['\\', 'u', h1, h2, h3, h4]
    else none
  | _ => none

/-- `\\u\{[0-9a-fA-F]+\}`: a maximal nonempty run of hex digits and then
`}` (the greedy `[0-9a-fA-F]+` cannot backtrack usefully because a hex digit
is never `}`). -/
def escHexAnyRule : Str → Option Str := fun rest =>
  match rest with
  | '\\' :: 'u' :: '{' :: t =>
    if (t.takeWhile isHexDigit) ≠ [] ∧ (t.drop (t.takeWhile isHexDigit).length).headD ' ' = '}' then
      some ('\\' :: 'u' :: '{' :: (t.takeWhile isHexDigit ++ ['}']))
    else none
  | _ => none

/-- `\\[^abfnrtv0xu"\\]`. -/
def escUnrecRule : Str → Option Str := fun rest =>
  match rest with
  | x :: y :: _ => if x = '\\' ∧ y ∉ escExcluded then some ['\\', y] else none
  | _ => none

/-- `[^"\\]`. -/
def charRule : Str → Option Str := fun rest =>
  match rest with
  | c :: _ => if c ≠ '"' ∧ c ≠ '\\' then some [c] else none
  | [] => none

/-- `STRING_RULES` (lexer.py 83-93): the ordered (kind, pattern) table of the
string sub-lexer. -/
def STRING_RULES : List (StrKind × (Str → Option Str)) :=
  [(.escQuote, twoCharRule '\\' '"'), (.escEsc, twoCharRule '\\' '\\'),
   (.escSimple, escSimpleRule), (.escHex8, escHex8Rule),
   (.escHex16, escHex16Rule), (.escHexAny, escHexAnyRule),
   (.escUnrec, escUnrecRule), (.char, charRule), (.closing, litRule '"')]

/-- First-match scanning of `STRING_RULES` at the head of `rest`, returning
the rule name and the raw matched text. -/
def matchStringRule (rest : Str) : Option (StrKind × Str) :=
  firstMatch STRING_RULES rest

def hexVal (c : Char) : Nat :=
  if c.isDigit then c.toNat - '0'.toNat
  else if 'a' ≤ c && c ≤ 'f' then c.toNat - 'a'.toNat + 10
  else if 'A' ≤ c && c ≤ 'F' then c.toNat - 'A'.toNat + 10
  else 0

def hexToNat (ds : Str) : Nat := ds.foldl (fun acc c => acc * 16 + hexVal c) 0

/-- `hex_to_utf8` (lexer.py 166-168): `UNICHR` of the numeric value,
re-encoded into the string.  Modelled at the code-point level: the decoded
value is the single character of that code point (every hex escape in the
claims is an ASCII code point). -/
def hex_to_utf8 (n : Nat) : Str := [Char.ofNat n]

/-- The decoded fragment a matched string rule appends to `parts`
(lexer.py 179-202); `none` for `CLOSING_QUOTE`, which appends nothing. -/
def decodeFragment (k : StrKind) (raw : Str) : Option Str :=
  match k with
  | .escQuote => some ['"']
  | .escEsc => some ['\\']
  | .escSimple =>
    some (match raw.getD 1 ' ' with
      | 'a' => ['\x07'] | 'b' => ['\x08'] | 'f' => ['\x0c'] | 'n' => ['\n']
      | 'r' => ['\x0d'] | 't' => ['\t'] | 'v' => ['\x0b'] | _ => ['\x00'])
  | .escHex8 => some (hex_to_utf8 (hexToNat (raw.drop 2)))
  | .escHex16 => some (hex_to_utf8 (hexToNat (raw.drop 2)))
  | .escHexAny => some (hex_to_utf8 (hexToNat ((raw.drop 3).dropLast)))
  | .escUnrec => some raw
  | .char => some raw
  | .closing => none

/-- Result of scanning the interior of a string literal. -/
inductive StringScanRes where
  | closed (val : Str) (len : Nat)
  | unterminated
  | subErr (pos : Nat)
  | fuelOut
  deriving DecidableEq, Repr

/-- `QuillLexerStream.lex_string`'s loop over the string sub-lexer
(lexer.py 174-207), scanning `s` from offset `i`; `len` is `1 +` the raw
characters consumed so far (it starts at 1 for the opening quote).  Reaching
end of input is the sub-stream's `StopIteration`, reported as `unterminated`;
an offset where no `STRING_RULES` rule matches is the sub-stream's
"unrecognized token" error, reported with its offset.  The final
`str_decode_utf_8` validation (lexer.py 207) always succeeds at the
code-point level of this model. -/
def stringScan (fuel : Nat) (s : Str) (i : Nat) (acc : Str) (len : Nat) : StringScanRes :=
  match fuel with
  | 0 => .fuelOut
  | fuel + 1 =>
    if i ≥ s.length then .unterminated
    else
      match matchStringRule (s.drop i) with
      | none => .subErr i
      | some (k, raw) =>
        match decodeFragment k raw with
        | none => .closed acc (len + raw.length)
        | some frag => stringScan fuel s (i + raw.length) (acc ++ frag) (len + raw.length)

/-- The trailing-token kinds after which a newline-containing whitespace run
triggers a synthetic `SEMICOLON` (lexer.py 221-222). -/
def termKinds : List TokKind :=
  [.RIGHT_CURLY_BRACE, .RIGHT_PAREN, .IDENTIFIER, .INTEGER]

/-- What `QuillLexerStream.next` does when the whitespace rule matched a run
`ws` containing a newline (lexer.py 220-228): with no previously emitted
token, `self._last_token.name` dereferences `None` (AttributeError); skip
unless the last token's kind is in `termKinds`; otherwise emit a synthetic
`SEMICOLON`. -/
inductive WsDecision where
  | emitSemi
  | skipRun
  | noneCrash
  deriving DecidableEq, Repr

def wsAction (last : Option TokKind) (ws : Str) : WsDecision :=
  if '\n' ∈ ws then
    match last with
    | none => .noneCrash
    | some k => if k ∈ termKinds then .emitSemi else .skipRun
  else .skipRun

/-- One consumed span of the input: either skipped whitespace or a token
(synthetic `SEMICOLON` and `STRING` tokens carry their span in their range). -/
inductive Seg where
  | ws (start stop : Nat)
  | tok (t : Token)
  deriving DecidableEq, Repr

def Seg.start : Seg → Nat
  | .ws a _ => a
  | .tok t => t.range.start

def Seg.stop : Seg → Nat
  | .ws _ b => b
  | .tok t => t.range.stop

/-- Lexer failures before the filename is attached. -/
inductive LexFailCore where
  | diag (d : DiagCore)
  | noneCrash
  | fuelOut
  deriving DecidableEq, Repr

/-- `QuillLexerStream.next` iterated to exhaustion (lexer.py 211-250),
returning the consumed spans in order.  Each recursive call strictly
increases `idx`, so fuel `s.length + 1` never runs out. -/
def lexLoop (fuel : Nat) (s : Str) (idx : Nat) (last : Option TokKind) :
    Except LexFailCore (List Seg) :=
  match fuel with
  | 0 => .error .fuelOut
  | fuel + 1 =>
    if idx ≥ s.length then .ok []
    else
      let rest := s.drop idx
      let wsRun := rest.takeWhile isSpace
      if wsRun ≠ [] then
        let stop := idx + wsRun.length
        match wsAction last wsRun with
        | .noneCrash => .error .noneCrash
        | .skipRun => (lexLoop fuel s stop last).map (Seg.ws idx stop :: ·)
        | .emitSemi =>
          let t : Token :=
            ⟨.SEMICOLON, wsRun, ⟨idx, stop, linenoAt s idx, colnoAt s idx⟩⟩
          (lexLoop fuel s stop (some .SEMICOLON)).map (Seg.tok t :: ·)
      else
        match matchRule rest with
        | none => .error (.diag (mkLexDiag "unrecognized token".toList s idx (linenoAt s idx)))
        | some (k, text) =>
          if k = .STRING then
            match stringScan fuel s (idx + 1) [] 1 with
            | .closed val len =>
              let t : Token :=
                ⟨.STRING, val, ⟨idx, idx + len, linenoAt s idx, colnoAt s idx⟩⟩
              (lexLoop fuel s (idx + len) (some .STRING)).map (Seg.tok t :: ·)
            | .unterminated =>
              .error (.diag (mkLexDiag "unterminated string".toList s idx (linenoAt s idx)))
            | .subErr p =>
              .error (.diag (mkLexDiag "unrecognized token".toList s p (linenoAt s p)))
            | .fuelOut => .error .fuelOut
          else
            let kind := (keywordKind text).getD k
            let t : Token :=
              ⟨kind, text, ⟨idx, idx + text.length, linenoAt s idx, colnoAt s idx⟩⟩
            (lexLoop fuel s (idx + text.length) (some kind)).map (Seg.tok t :: ·)

/-- All consumed spans of `s`, starting from offset 0 with no previous token
(`QuillLexer.lex`, lexer.py 258-259). -/
def lexCore (s : Str) : Except LexFailCore (List Seg) :=
  lexLoop (s.length + 1) s 0 none

def tokensOfSegs (segs : List Seg) : List Token :=
  segs.filterMap (fun sg => match sg with | .ws _ _ => none | .tok t => some t)

/-- A lexer diagnostic with the stream's filename attached
(`SRLexerStream.__init__` stores it; `parse_error` puts it in the error). -/
structure Diag where
  msg : Str
  line : Str
  filename : Str
  lineno : Nat
  start_colno : Int
  end_colno : Int
  deriving DecidableEq, Repr

def DiagCore.withFilename (d : DiagCore) (fname : Str) : Diag :=
  ⟨d.msg, d.line, fname, d.lineno, d.start_colno, d.end_colno⟩

/-- AST nodes.  Modelled from the spec: `nolang/astnodes.py` is not among the
provided sources; spec section 3 "DATA MODEL" lists the node variants and
fields, and the grammar actions in `parser.py` (which construct them) fix the
arguments.  The transient list-builder carriers (`FunctionBody`, `ArgList`,
`VarDeclPartial`, `ExpressionListPartial`) are represented directly by the
lists they accumulate. -/
inductive Ast where
  | program (items : List Ast)
  | classdef (name : Str) (body : List Ast) (super : Option Str)
  | func (name : Str) (args : List Str) (body : List Ast)
  | stmt (e : Ast)
  | varDecl (names : List Str)
  | assign (name : Str) (e : Ast)
  | setattr (target : Ast) (attr : Str) (v : Ast)
  | ret (e : Ast)
  | whileLoop (cond : Ast) (body : List Ast)
  | ifBlock (cond : Ast) (body : List Ast)
  | raiseStmt (e : Ast)
  | tryExcept (body : List Ast) (excNames : List Str) (handler : List Ast)
      (finallyBody : Option (List Ast))
  | num (n : Nat)
  | str (v : Str)
  | ident (name : Str)
  | trueNode
  | falseNode
  | binop (op : Str) (l r : Ast)
  | orExpr (l r : Ast)
  | andExpr (l r : Ast)
  | call (callee : Ast) (args : List Ast)
  | getattr (obj : Ast) (attr : Str)

/-- `ParseError` raised by the parser's `errorhandler` (parser.py 11-29). -/
structure PDiag where
  line : Str
  filename : Str
  lineno : Nat
  start_colno : Int
  end_colno : Int
  deriving DecidableEq, Repr

/-- `errorhandler` (parser.py 24-29): the offending token's source line,
the hard-coded filename `'<input>'`, the token's 1-based line number, and
the column range `(colno - 1, len(value) + colno - 1)`. -/
def errorhandler (input : Str) (tok : Token) : PDiag :=
  { line := (splitlines input).getD (tok.range.lineno - 1) [],
    filename := "<input>".toList,
    lineno := tok.range.lineno,
    start_colno := (tok.range.colno : Int) - 1,
    end_colno := (tok.value.length : Int) + (tok.range.colno : Int) - 1 }

/-- Parser failures: an `errorhandler` diagnostic; the crash rply's driver
hits when the stream is exhausted and the error handler receives the
position-less `$end` token (`lookahead.getsourcepos()` is `None`); the
failed `assert end >= 0` of `expression_string` (parser.py 162); and fuel
exhaustion (a model artifact, unreachable with the fuel used below). -/
inductive PFail where
  | diag (d : PDiag)
  | eofCrash
  | assertFail
  | fuelOut
  deriving DecidableEq, Repr

/-- `expression_string` (parser.py 157-163) on the token value `s` (which the
lexer already delivers decoded and quote-stripped): `end = len(s) - 1` must be
`>= 0` or the assert fails, and the node value is `s[1:end]` — the value with
its first and last characters removed. -/
def stringActionDecode (s : Str) : Option Str :=
  if s.length = 0 then none else some ((s.drop 1).dropLast)

/-- `int(p[0].getstr())` for `expression_number` (parser.py 153-155). -/
def digitsToNat (ds : Str) : Nat := ds.foldl (fun acc c => acc * 10 + (c.toNat - '0'.toNat)) 0

/-- The declared precedence table (parser.py 32-40), lowest to highest
binding power, all left-associative. -/
def precedence : List (List TokKind) :=
  [[.AND], [.OR], [.EQ, .LT], [.PLUS, .MINUS], [.TRUEDIV, .STAR], [.DOT], [.LEFT_PAREN]]

/-- The binary-operator terminals of the expression grammar
(parser.py 169-175, 202-209). -/
def binOpKinds : List TokKind :=
  [.AND, .OR, .EQ, .LT, .PLUS, .MINUS, .TRUEDIV, .STAR]

/-- Binding power of a binary-operator terminal: its (1-based) level in the
declared `precedence` table; `none` for non-operators.  `DOT` and
`LEFT_PAREN` are listed in the table only to resolve the shift for attribute
access and calls, which bind tightest (they are handled inside `parseAtom`). -/
def opBp (k : TokKind) : Option Nat :=
  if k ∈ binOpKinds then
    (precedence.findIdx? (fun g => k ∈ g)).map (· + 1)
  else none

/-- The AST node a binary-operator reduction builds (parser.py 169-175,
202-209): `Or`/`And` for the logical operators, otherwise
`BinOp(p[1].getstr(), ...)`. -/
def mkBinNode (k : TokKind) (opText : Str) (l r : Ast) : Ast :=
  match k with
  | .OR => .orExpr l r
  | .AND => .andExpr l r
  | _ => .binop opText l r

/-- Consume one token of the required kind, else raise the parser error for
the offending token (rply calls `errorhandler` on a token with no action);
on an exhausted stream rply's `$end` token makes `errorhandler` crash. -/
def expectTok (input : Str) (toks : List Token) (k : TokKind) :
    Except PFail (Token × List Token) :=
  match toks with
  | [] => .error .eofCrash
  | t :: ts => if t.name = k then .ok (t, ts) else .error (.diag (errorhandler input t))

/-!
The grammar of `get_parser` (parser.py 43-225) as a deterministic
recursive-descent parser equivalent to the generated LALR(1) table: the
declared precedence/associativity table resolves every expression conflict
(left-associative binary levels from `precedence`; `DOT` and `LEFT_PAREN`
bind tightest, inside `parseAtomSuffix`), and the remaining productions are
LL-style with the one-token lookahead the LALR driver uses.  All functions
run on `fuel`, decreasing at every call; the fuel supplied by `parseProgram`
is large enough that `PFail.fuelOut` is unreachable there.
-/
mutual

/-- `body : | body body_element`, `body_element : function | class_definition`
(parser.py 47-62): elements accumulate while the lookahead can start one.
Only `CLASS` can: the `function` alternative begins with the symbol
`FUNCTION`, which is absent from `TOKENS`, so rply compiles it as a
production-less *nonterminal* — it receives goto entries but never an action
entry, and a lookahead token of that name (which the lexer cannot produce
anyway) reaches the error handler like any other token unable to start a
body element, through the caller's next expectation. -/
def parseBody (fuel : Nat) (input : Str) (toks : List Token) :
    Except PFail (List Ast × List Token) :=
  match fuel with
  | 0 => .error .fuelOut
  | fuel + 1 =>
    match toks with
    | [] => .ok ([], [])
    | t :: _ =>
      if t.name = .CLASS then
        match parseClass fuel input toks with
        | .error e => .error e
        | .ok (c, r1) =>
          match parseBody fuel input r1 with
          | .error e => .error e
          | .ok (items, r2) => .ok (c :: items, r2)
      else .ok ([], toks)

/-- `class_definition : CLASS IDENTIFIER LEFT_CURLY_BRACE body RIGHT_CURLY_BRACE`
and the single-inheritance variant (parser.py 64-72). -/
def parseClass (fuel : Nat) (input : Str) (toks : List Token) :
    Except PFail (Ast × List Token) :=
  match fuel with
  | 0 => .error .fuelOut
  | fuel + 1 =>
    match expectTok input toks .CLASS with
    | .error e => .error e
    | .ok (_, r1) =>
      match expectTok input r1 .IDENTIFIER with
      | .error e => .error e
      | .ok (nameTok, r2) =>
        match r2 with
        | [] => .error .eofCrash
        | u :: us =>
          if u.name = .LEFT_CURLY_BRACE then
            match parseBody fuel input us with
            | .error e => .error e
            | .ok (body, r3) =>
              match expectTok input r3 .RIGHT_CURLY_BRACE with
              | .error e => .error e
              | .ok (_, r4) => .ok (.classdef nameTok.value body none, r4)
          else if u.name = .LEFT_PAREN then
            match expectTok input us .IDENTIFIER with
            | .error e => .error e
            | .ok (supTok, r3) =>
              match expectTok input r3 .RIGHT_PAREN with
              | .error e => .error e
              | .ok (_, r4) =>
                match expectTok input r4 .LEFT_CURLY_BRACE with
                | .error e => .error e
                | .ok (_, r5) =>
                  match parseBody fuel input r5 with
                  | .error e => .error e
                  | .ok (body, r6) =>
                    match expectTok input r6 .RIGHT_CURLY_BRACE with
                    | .error e => .error e
                    | .ok (_, r7) =>
                      .ok (.classdef nameTok.value body (some supTok.value), r7)
          else .error (.diag (errorhandler input u))

/-- `function : FUNCTION IDENTIFIER arglist LEFT_CURLY_BRACE function_body
[expression] RIGHT_CURLY_BRACE` (parser.py 74-85), the trailing expression
becoming an implicit `Return`.  This records the productions' action
composition only: in the rply-built table `FUNCTION` (absent from `TOKENS`)
is a production-less nonterminal with no action entry, so these productions
are unreachable — `parseBody` never calls this function, and no alternative
of the built grammar does either. -/
def parseFunctionDecl (fuel : Nat) (input : Str) (toks : List Token) :
    Except PFail (Ast × List Token) :=
  match fuel with
  | 0 => .error .fuelOut
  | fuel + 1 => do
    let (_, r1) ← expectTok input toks .FUNCTION
    let (nameTok, r2) ← expectTok input r1 .IDENTIFIER
    let (args, r3) ← parseArglist fuel input r2
    let (_, r4) ← expectTok input r3 .LEFT_CURLY_BRACE
    let (bodyTrail, r5) ← parseFuncBody fuel true input r4
    let (_, r6) ← expectTok input r5 .RIGHT_CURLY_BRACE
    let body := match bodyTrail.2 with
      | some e => bodyTrail.1 ++ [.ret e]
      | none => bodyTrail.1
    .ok (.func nameTok.value args body, r6)

/-- `arglist : LEFT_PAREN RIGHT_PAREN | LEFT_PAREN IDENTIFIER var_decl
RIGHT_PAREN` (parser.py 145-151): the names are accumulated by
concatenation, with no uniqueness check. -/
def parseArglist (fuel : Nat) (input : Str) (toks : List Token) :
    Except PFail (List Str × List Token) :=
  match fuel with
  | 0 => .error .fuelOut
  | fuel + 1 => do
    let (_, r1) ← expectTok input toks .LEFT_PAREN
    match r1 with
    | [] => .error .eofCrash
    | u :: us =>
      if u.name = .RIGHT_PAREN then .ok ([], us)
      else if u.name = .IDENTIFIER then do
        let (names, r2) ← parseVarDeclTail fuel input us
        let (_, r3) ← expectTok input r2 .RIGHT_PAREN
        .ok (u.value :: names, r3)
      else .error (.diag (errorhandler input u))

/-- `var_decl : | COMMA IDENTIFIER var_decl` (parser.py 104-110). -/
def parseVarDeclTail (fuel : Nat) (input : Str) (toks : List Token) :
    Except PFail (List Str × List Token) :=
  match fuel with
  | 0 => .error .fuelOut
  | fuel + 1 =>
    match toks with
    | t :: ts =>
      if t.name = .COMMA then do
        let (nameTok, r1) ← expectTok input ts .IDENTIFIER
        let (names, r2) ← parseVarDeclTail fuel input r1
        .ok (nameTok.value :: names, r2)
      else .ok ([], toks)
    | [] => .ok ([], [])

/-- `function_body : | function_body statement` plus the statement
productions (parser.py 87-143), stopping at a `RIGHT_CURLY_BRACE` lookahead.
When `allowTrailing` is true (directly inside a `function`), a trailing
expression before the closing brace is returned separately (parser.py 80-85);
inside `while`/`if`/`try` bodies the production is a plain `function_body`,
so there an expression must be followed by `SEMICOLON`. -/
def parseFuncBody (fuel : Nat) (allowTrailing : Bool) (input : Str) (toks : List Token) :
    Except PFail ((List Ast × Option Ast) × List Token) :=
  match fuel with
  | 0 => .error .fuelOut
  | fuel + 1 =>
    match toks with
    | [] => .ok (([], none), [])
    | t :: ts =>
      match t.name with
      | .RIGHT_CURLY_BRACE => .ok (([], none), toks)
      | .VAR => do
        let (nameTok, r1) ← expectTok input ts .IDENTIFIER
        let (names, r2) ← parseVarDeclTail fuel input r1
        let (_, r3) ← expectTok input r2 .SEMICOLON
        parseFuncBodyCons fuel allowTrailing input (.varDecl (nameTok.value :: names)) r3
      | .RETURN => do
        let (e, r1) ← parseExpression fuel 0 input ts
        let (_, r2) ← expectTok input r1 .SEMICOLON
        parseFuncBodyCons fuel allowTrailing input (.ret e) r2
      | .RAISE => do
        let (e, r1) ← parseExpression fuel 0 input ts
        let (_, r2) ← expectTok input r1 .SEMICOLON
        parseFuncBodyCons fuel allowTrailing input (.raiseStmt e) r2
      | .WHILE => do
        let (e, r1) ← parseExpression fuel 0 input ts
        let (_, r2) ← expectTok input r1 .LEFT_CURLY_BRACE
        let (body, r3) ← parseFuncBody fuel false input r2
        let (_, r4) ← expectTok input r3 .RIGHT_CURLY_BRACE
        parseFuncBodyCons fuel allowTrailing input (.whileLoop e body.1) r4
      | .IF => do
        let (e, r1) ← parseExpression fuel 0 input ts
        let (_, r2) ← expectTok input r1 .LEFT_CURLY_BRACE
        let (body, r3) ← parseFuncBody fuel false input r2
        let (_, r4) ← expectTok input r3 .RIGHT_CURLY_BRACE
        parseFuncBodyCons fuel allowTrailing input (.ifBlock e body.1) r4
      | .TRY => do
        let (_, r1) ← expectTok input ts .LEFT_CURLY_BRACE
        let (b1, r2) ← parseFuncBody fuel false input r1
        let (_, r3) ← expectTok input r2 .RIGHT_CURLY_BRACE
        let (_, r4) ← expectTok input r3 .EXCEPT
        let (nTok, r5) ← expectTok input r4 .IDENTIFIER
        let (_, r6) ← expectTok input r5 .LEFT_CURLY_BRACE
        let (b2, r7) ← parseFuncBody fuel false input r6
        let (_, r8) ← expectTok input r7 .RIGHT_CURLY_BRACE
        parseFuncBodyCons fuel allowTrailing input
          (.tryExcept b1.1 [nTok.value] b2.1 none) r8
      | .IDENTIFIER =>
        match ts with
        | u :: us =>
          if u.name = .ASSIGN then do
            let (e, r1) ← parseExpression fuel 0 input us
            let (_, r2) ← expectTok input r1 .SEMICOLON
            parseFuncBodyCons fuel allowTrailing input (.assign t.value e) r2
          else parseFuncBodyExpr fuel allowTrailing input toks
        | [] => parseFuncBodyExpr fuel allowTrailing input toks
      | _ => parseFuncBodyExpr fuel allowTrailing input toks

/-- The `statement : expression SEMICOLON | atom DOT IDENTIFIER ASSIGN
expression SEMICOLON` cases and the trailing-expression case, decided by the
token after the parsed expression (parser.py 96-98, 116-118, 80-85).
Deciding the setattr form by the parsed expression's tree shape diverges
from the table parser in one corner: `(x.y) = v;` would be accepted here,
although the production requires the bare `atom DOT IDENTIFIER` head (the
parenthesisation is erased in the tree).  The divergence is unreachable in
the pipeline: statements occur only inside function bodies, and the
`function` productions hang off the never-lexed `FUNCTION` symbol, so no
lexer-producible token stream reaches this function. -/
def parseFuncBodyExpr (fuel : Nat) (allowTrailing : Bool) (input : Str) (toks : List Token) :
    Except PFail ((List Ast × Option Ast) × List Token) :=
  match fuel with
  | 0 => .error .fuelOut
  | fuel + 1 => do
    let (e, r1) ← parseExpression fuel 0 input toks
    match r1 with
    | [] => .error .eofCrash
    | u :: us =>
      if u.name = .SEMICOLON then
        parseFuncBodyCons fuel allowTrailing input (.stmt e) us
      else if u.name = .ASSIGN then
        match e with
        | .getattr a n => do
          let (v, r2) ← parseExpression fuel 0 input us
          let (_, r3) ← expectTok input r2 .SEMICOLON
          parseFuncBodyCons fuel allowTrailing input (.setattr a n v) r3
        | _ => .error (.diag (errorhandler input u))
      else if u.name = .RIGHT_CURLY_BRACE then
        if allowTrailing then .ok (([], some e), r1)
        else .error (.diag (errorhandler input u))
      else .error (.diag (errorhandler input u))

/-- Prepend a finished statement and continue the `function_body` loop. -/
def parseFuncBodyCons (fuel : Nat) (allowTrailing : Bool) (input : Str) (st : Ast)
    (toks : List Token) : Except PFail ((List Ast × Option Ast) × List Token) :=
  match fuel with
  | 0 => .error .fuelOut
  | fuel + 1 => do
    let (rest, r) ← parseFuncBody fuel allowTrailing input toks
    .ok ((st :: rest.1, rest.2), r)

/-- `expression` (parser.py 153-209): primaries `INTEGER`, `STRING`, and the
`atom` forms; then the left-associative binary-operator levels of the
declared precedence table via `parseBinLoop`. -/
def parseExpression (fuel : Nat) (minBp : Nat) (input : Str) (toks : List Token) :
    Except PFail (Ast × List Token) :=
  match fuel with
  | 0 => .error .fuelOut
  | fuel + 1 =>
    match toks with
    | [] => .error .eofCrash
    | t :: ts =>
      match t.name with
      | .INTEGER => parseBinLoop fuel minBp input (.num (digitsToNat t.value)) ts
      | .STRING =>
        match stringActionDecode t.value with
        | none => .error .assertFail
        | some v => parseBinLoop fuel minBp input (.str v) ts
      | .TRUE => do
        let (a, r) ← parseAtomSuffix fuel input .trueNode ts
        parseBinLoop fuel minBp input a r
      | .FALSE => do
        let (a, r) ← parseAtomSuffix fuel input .falseNode ts
        parseBinLoop fuel minBp input a r
      | .IDENTIFIER => do
        let (a, r) ← parseAtomSuffix fuel input (.ident t.value) ts
        parseBinLoop fuel minBp input a r
      | .LEFT_PAREN => do
        let (e, r1) ← parseExpression fuel 0 input ts
        let (_, r2) ← expectTok input r1 .RIGHT_PAREN
        let (a, r3) ← parseAtomSuffix fuel input e r2
        parseBinLoop fuel minBp input a r3
      | _ => .error (.diag (errorhandler input t))

/-- The left-associative binary-operator loop: consume operators of binding
power at least `minBp`, parsing each right operand one level tighter
(left associativity, as every level of `precedence` is declared `left`). -/
def parseBinLoop (fuel : Nat) (minBp : Nat) (input : Str) (lhs : Ast) (toks : List Token) :
    Except PFail (Ast × List Token) :=
  match fuel with
  | 0 => .error .fuelOut
  | fuel + 1 =>
    match toks with
    | [] => .ok (lhs, [])
    | t :: ts =>
      match opBp t.name with
      | some bp =>
        if minBp ≤ bp then do
          let (rhs, rest) ← parseExpression fuel (bp + 1) input ts
          parseBinLoop fuel minBp input (mkBinNode t.name t.value lhs rhs) rest
        else .ok (lhs, toks)
      | none => .ok (lhs, toks)

/-- `atom : atom DOT IDENTIFIER | atom LEFT_PAREN expression_list RIGHT_PAREN`
(parser.py 189-200): attribute access and call suffixes, binding tightest. -/
def parseAtomSuffix (fuel : Nat) (input : Str) (a : Ast) (toks : List Token) :
    Except PFail (Ast × List Token) :=
  match fuel with
  | 0 => .error .fuelOut
  | fuel + 1 =>
    match toks with
    | [] => .ok (a, [])
    | t :: ts =>
      if t.name = .DOT then do
        let (nameTok, r1) ← expectTok input ts .IDENTIFIER
        parseAtomSuffix fuel input (.getattr a nameTok.value) r1
      else if t.name = .LEFT_PAREN then do
        let (args, r1) ← parseExprList fuel input ts
        let (_, r2) ← expectTok input r1 .RIGHT_PAREN
        parseAtomSuffix fuel input (.call a args) r2
      else .ok (a, toks)

/-- `expression_list : | expression expression_sublist` (parser.py 211-217). -/
def parseExprList (fuel : Nat) (input : Str) (toks : List Token) :
    Except PFail (List Ast × List Token) :=
  match fuel with
  | 0 => .error .fuelOut
  | fuel + 1 =>
    match toks with
    | [] => .ok ([], [])
    | t :: _ =>
      if t.name = .RIGHT_PAREN then .ok ([], toks)
      else do
        let (e, r1) ← parseExpression fuel 0 input toks
        let (es, r2) ← parseExprSublist fuel input r1
        .ok (e :: es, r2)

/-- `expression_sublist : | COMMA expression expression_sublist`
(parser.py 219-225). -/
def parseExprSublist (fuel : Nat) (input : Str) (toks : List Token) :
    Except PFail (List Ast × List Token) :=
  match fuel with
  | 0 => .error .fuelOut
  | fuel + 1 =>
    match toks with
    | [] => .ok ([], [])
    | t :: ts =>
      if t.name = .COMMA then do
        let (e, r1) ← parseExpression fuel 0 input ts
        let (es, r2) ← parseExprSublist fuel input r1
        .ok (e :: es, r2)
      else .ok ([], toks)

end

/-- `program : body` followed by end of input (parser.py 43-45): leftover
tokens mean the LALR driver sees a lookahead with no action and calls
`errorhandler` on it. -/
def parseProgram (input : Str) (toks : List Token) : Except PFail Ast :=
  match parseBody (4 * toks.length + 16) input toks with
  | .error e => .error e
  | .ok (items, []) => .ok (.program items)
  | .ok (_, t :: _) => .error (.diag (errorhandler input t))

mutual

/-- No `Function` node occurs anywhere in the tree.  Used below to show the
built parser can never produce one: the `function` productions consume the
`FUNCTION` symbol, which no lexer token carries and which has no action
entry in the built table. -/
def Ast.noFunc : Ast → Bool
  | .program items => noFuncList items
  | .classdef _ body _ => noFuncList body
  | .func _ _ _ => false
  | .stmt e => e.noFunc
  | .varDecl _ => true
  | .assign _ e => e.noFunc
  | .setattr a _ v => a.noFunc && v.noFunc
  | .ret e => e.noFunc
  | .whileLoop c b => c.noFunc && noFuncList b
  | .ifBlock c b => c.noFunc && noFuncList b
  | .raiseStmt e => e.noFunc
  | .tryExcept b _ hd f =>
    noFuncList b && noFuncList hd &&
      (match f with | some l => noFuncList l | none => true)
  | .num _ => true
  | .str _ => true
  | .ident _ => true
  | .trueNode => true
  | .falseNode => true
  | .binop _ l r => l.noFunc && r.noFunc
  | .orExpr l r => l.noFunc && r.noFunc
  | .andExpr l r => l.noFunc && r.noFunc
  | .call c args => c.noFunc && noFuncList args
  | .getattr a _ => a.noFunc

def noFuncList : List Ast → Bool
  | [] => true
  | a :: rest => a.noFunc && noFuncList rest

end

/-- Every way one lex+parse invocation can fail.  `lexDiag`/`parseDiag` are
the two Diagnostic kinds of the spec (the lexer's and the parser's
`ParseError` classes).  The remaining constructors are the non-Diagnostic
ways out: `lexCrash` is the `AttributeError` from `self._last_token.name`
when no token has been emitted yet (lexer.py 221); `parseEofCrash` is the
`AttributeError` from `lookahead.getsourcepos()` on rply's position-less
`$end` token; `assertFail` is the failed `assert end >= 0` of
`expression_string` (parser.py 162); `fuelOut` is a model artifact. -/
inductive Failure where
  | lexDiag (d : Diag)
  | lexCrash
  | parseDiag (d : PDiag)
  | parseEofCrash
  | assertFail
  | fuelOut
  deriving DecidableEq, Repr

def liftPFail : PFail → Failure
  | .diag d => .parseDiag d
  | .eofCrash => .parseEofCrash
  | .assertFail => .assertFail
  | .fuelOut => .fuelOut

/-- The token stream of `get_lexer().lex(filename, s)`, run to exhaustion,
with the stream's filename attached to any diagnostic. -/
def lexAll (fname : String) (s : String) : Except Failure (List Token) :=
  match lexCore s.toList with
  | .ok segs => .ok (tokensOfSegs segs)
  | .error (.diag d) => .error (.lexDiag (d.withFilename fname.toList))
  | .error .noneCrash => .error .lexCrash
  | .error .fuelOut => .error .fuelOut

/-- The whole front end: lex `s`, then parse the token stream with
`get_parser().parse`, whose `ParsingState` carries the source text for
`errorhandler` (the supplied filename reaches only lexer diagnostics; the
parser's `errorhandler` hard-codes `'<input>'`).  The parser pulls tokens
one at a time; modelling the lex as a completed pass is observationally
equal for every result stated below, because each such input either lexes
completely or fails while producing a token the parser would demand. -/
def pipeline (fname : String) (s : String) : Except Failure Ast :=
  match lexAll fname s with
  | .error e => .error e
  | .ok toks =>
    match parseProgram s.toList toks with
    | .ok a => .ok a
    | .error e => .error (liftPFail e)

/-- A token with a placeholder source range, for feeding the grammar
directly with token streams (the parser reads ranges only in `errorhandler`). -/
def tkn (k : TokKind) (v : String) : Token := ⟨k, v.toList, ⟨0, 0, 1, 1⟩⟩

/-- `segsTile i j segs`: the consumed spans `segs` exactly tile the half-open
interval `[i, j)`, in order, each nonempty — hence pairwise non-overlapping
and monotonically increasing. -/
def segsTile (i j : Nat) : List Seg → Bool
  | [] => i == j
  | sg :: rest => (sg.start == i) && decide (i < sg.stop) && segsTile sg.stop j rest

/-- The source text covered by a consumed span. -/
def segSlice (s : Str) (sg : Seg) : Str := (s.take sg.stop).drop sg.start

/-- The AST of the one-class program `class A { }`. -/
def classATree : Ast :=
  let nm : Str := "A".toList
  Ast.classdef nm [] none

theorem expectTok_no_assert (input : Str) (toks : List Token) (k : TokKind) :
    expectTok input toks k ≠ .error .assertFail := by
  match toks with
  | [] => simp [expectTok]
  | t :: ts =>
    simp only [expectTok]
    split <;> simp

/-- The reachable grammar (`body`/`class_definition`, the only productions
hanging off the start symbol in the built table) never fails the string
assert and never builds a `Function` node. -/
theorem parse_body_class_props (fuel : Nat) : ∀ (input : Str) (toks : List Token),
    (parseBody fuel input toks ≠ .error .assertFail ∧
     ∀ items rest, parseBody fuel input toks = .ok (items, rest) →
       noFuncList items = true) ∧
    (parseClass fuel input toks ≠ .error .assertFail ∧
     ∀ a rest, parseClass fuel input toks = .ok (a, rest) → a.noFunc = true) := by
  induction fuel with
  | zero =>
    intro input toks
    refine ⟨⟨by simp [parseBody], ?_⟩, by simp [parseClass], ?_⟩
    · intro items rest h
      simp [parseBody] at h
    · intro a rest h
      simp [parseClass] at h
  | succ n ih =>
    intro input toks
    refine ⟨⟨?_, ?_⟩, ?_, ?_⟩
    · intro h
      simp only [parseBody] at h
      split at h
      · simp at h
      · split at h
        · split at h
          · next e heq =>
            simp at h
            subst h
            exact (ih input _).2.1 heq
          · next c r1 heq =>
            split at h
            · next e heq2 =>
              simp at h
              subst h
              exact (ih input r1).1.1 heq2
            · simp at h
        · simp at h
    · intro items rest h
      simp only [parseBody] at h
      split at h
      · injection h with h'
        injection h' with h1 h2
        subst h1
        rfl
      · split at h
        · split at h
          · simp at h
          · next c r1 heq =>
            split at h
            · simp at h
            · next items2 r2 heq2 =>
              injection h with h'
              injection h' with h1 h2
              subst h1
              have hc := (ih input _).2.2 c r1 heq
              have hi := (ih input r1).1.2 items2 r2 heq2
              simp [noFuncList, hc, hi]
        · injection h with h'
          injection h' with h1 h2
          subst h1
          rfl
    · intro h
      simp only [parseClass] at h
      split at h
      · next e heq =>
        simp at h
        subst h
        exact expectTok_no_assert input toks .CLASS heq
      · split at h
        · next e heq =>
          simp at h
          subst h
          exact expectTok_no_assert _ _ _ heq
        · split at h
          · simp at h
          · split at h
            · split at h
              · next e heq =>
                simp at h
                subst h
                exact (ih input _).1.1 heq
              · split at h
                · next e heq =>
                  simp at h
                  subst h
                  exact expectTok_no_assert _ _ _ heq
                · simp at h
            · split at h
              · split at h
                · next e heq =>
                  simp at h
                  subst h
                  exact expectTok_no_assert _ _ _ heq
                · split at h
                  · next e heq =>
                    simp at h
                    subst h
                    exact expectTok_no_assert _ _ _ heq
                  · split at h
                    · next e heq =>
                      simp at h
                      subst h
                      exact expectTok_no_assert _ _ _ heq
                    · split at h
                      · next e heq =>
                        simp at h
                        subst h
                        exact (ih input _).1.1 heq
                      · split at h
                        · next e heq =>
                          simp at h
                          subst h
                          exact expectTok_no_assert _ _ _ heq
                        · simp at h
              · simp at h
    · intro a rest h
      simp only [parseClass] at h
      split at h
      · simp at h
      · split at h
        · simp at h
        · split at h
          · simp at h
          · split at h
            · split at h
              · simp at h
              · next body r3 heq =>
                split at h
                · simp at h
                · injection h with h'
                  injection h' with h1 h2
                  subst h1
                  have hb := (ih input _).1.2 body r3 heq
                  simp [Ast.noFunc, hb]
            · split at h
              · split at h
                · simp at h
                · split at h
                  · simp at h
                  · split at h
                    · simp at h
                    · split at h
                      · simp at h
                      · next body r6 heq =>
                        split at h
                        · simp at h
                        · injection h with h'
                          injection h' with h1 h2
                          subst h1
                          have hb := (ih input _).1.2 body r6 heq
                          simp [Ast.noFunc, hb]
              · simp at h

theorem parseProgram_no_assert (input : Str) (toks : List Token) :
    parseProgram input toks ≠ .error .assertFail := by
  intro h
  unfold parseProgram at h
  split at h
  · next e heq =>
    simp at h
    subst h
    exact (parse_body_class_props _ input toks).1.1 heq
  · simp at h
  · simp at h

theorem parseProgram_noFunc (input : Str) (toks : List Token) (prog : Ast)
    (h : parseProgram input toks = .ok prog) : prog.noFunc = true := by
  unfold parseProgram at h
  split at h
  · simp at h
  · next items heq =>
    injection h with h'
    subst h'
    have hi := (parse_body_class_props _ input toks).1.2 items [] heq
    simpa [Ast.noFunc] using hi
  · simp at h

/-- No pipeline invocation ends in the string action's assertion failure:
the failing assert of `expression_string` is unreachable from the start
symbol. -/
theorem pipeline_no_assert (fname s : String) :
    pipeline fname s ≠ .error .assertFail := by
  intro h
  unfold pipeline lexAll at h
  simp only [String.toList] at h
  cases hl : lexCore s.data with
  | error e =>
    rw [hl] at h
    cases e <;> simp at h
  | ok segs =>
    rw [hl] at h
    cases hp : parseProgram s.data (tokensOfSegs segs) with
    | ok a => simp [hp] at h
    | error e =>
      simp [hp] at h
      cases e <;> simp [liftPFail] at h
      exact parseProgram_no_assert s.data (tokensOfSegs segs) hp

/-- Every successfully parsed Program is free of `Function` nodes. -/
theorem pipeline_noFunc (fname s : String) (prog : Ast)
    (h : pipeline fname s = .ok prog) : prog.noFunc = true := by
  unfold pipeline lexAll at h
  simp only [String.toList] at h
  cases hl : lexCore s.data with
  | error e =>
    rw [hl] at h
    cases e <;> simp at h
  | ok segs =>
    rw [hl] at h
    cases hp : parseProgram s.data (tokensOfSegs segs) with
    | ok a =>
      simp [hp] at h
      subst h
      exact parseProgram_noFunc s.data (tokensOfSegs segs) _ hp
    | error e => simp [hp] at h

/-- C1: Parsing the source text `def foo() { return 13 }` does NOT succeed:
the grammar's `function` productions use a terminal `FUNCTION` that is not in
`TOKENS` and is never produced by the lexer (the lexer reclassifies `def` to
`DEF`), so the very first token already has no action and the pipeline raises
a `ParseError` over it (line `def foo() { return 13 }`, filename `<input>`,
line 1, columns 0-3) instead of returning
`Program[Function("foo", [], [Return(Number(13))])]`. -/
theorem c1_def_foo_parse :
    TokKind.FUNCTION ∉ TOKENS ∧
    (lexAll "test.nl" "def foo() { return 13 }").map (List.map Token.name) =
      .ok [.DEF, .IDENTIFIER, .LEFT_PAREN, .RIGHT_PAREN, .LEFT_CURLY_BRACE,
           .RETURN, .INTEGER, .RIGHT_CURLY_BRACE] ∧
    pipeline "test.nl" "def foo() { return 13 }" =
      .error (.parseDiag ⟨"def foo() { return 13 }".toList, "<input>".toList, 1, 0, 3⟩) :=
  ⟨by decide, rfl, rfl⟩

/-- C2: The lexer delivers the STRING token for `"abc"` with value exactly
the decoded content `abc`, but the parser's `expression_string` action strips
a further first and last character from that already-stripped value, so the
AST node it builds carries `b`, not `abc`; on the empty literal `""` (decoded
value of length 0) its `assert end >= 0` fails. -/
theorem c2_string_node_value :
    (lexAll "f.nl" "\"abc\"").map (List.map fun t => (t.name, t.value)) =
      .ok [(TokKind.STRING, "abc".toList)] ∧
    stringActionDecode "abc".toList = some "b".toList ∧
    "b".toList ≠ "abc".toList ∧
    stringActionDecode "".toList = none :=
  ⟨rfl, rfl, by decide, rfl⟩

/-- C3 counterexample: on the input `"\na"` (leading newline before any
token) the pipeline neither returns a `Program` nor raises a Diagnostic
(`Failure.lexDiag`/`Failure.parseDiag`): the lexer crashes dereferencing
`self._last_token`, which is still `None`. -/
theorem c3_leading_newline_crash :
    pipeline "f.nl" "\na" = .error .lexCrash := rfl

/-- C5: The declared precedence table is, lowest to highest, logical-and,
logical-or, {equality, less-than}, {add, subtract}, {multiply,
integer-divide}, dot, call, all left-associative; consequently parsing the
token form `x and y or z` (for any identifier values) yields
`And(x, Or(y, z))`, consuming the whole stream. -/
theorem c5_precedence_and_or :
    precedence = [[.AND], [.OR], [.EQ, .LT], [.PLUS, .MINUS],
                  [.TRUEDIV, .STAR], [.DOT], [.LEFT_PAREN]] ∧
    opBp .AND = some 1 ∧ opBp .OR = some 2 ∧
    (∀ x y z : Str,
      parseExpression 64 0 []
        [⟨.IDENTIFIER, x, ⟨0, 0, 1, 1⟩⟩, tkn .AND "and",
         ⟨.IDENTIFIER, y, ⟨0, 0, 1, 1⟩⟩, tkn .OR "or",
         ⟨.IDENTIFIER, z, ⟨0, 0, 1, 1⟩⟩] =
      .ok (.andExpr (.ident x) (.orExpr (.ident y) (.ident z)), [])) :=
  ⟨rfl, rfl, rfl, fun _ _ _ => rfl⟩

/-- C6 counterexample: the input `"ab\` has an opening quote never followed
by a closing quote, yet the raised LexError is "unrecognized token" (the
trailing lone backslash matches no string rule), not "unterminated string". -/
theorem c6_lone_backslash_message :
    lexAll "f.nl" "\"ab\\" =
      .error (.lexDiag ⟨"unrecognized token".toList, "\"ab\\".toList,
                        "f.nl".toList, 1, 2, 3⟩) ∧
    "unrecognized token".toList ≠ "unterminated string".toList :=
  ⟨rfl, by decide⟩

/-- C6 amended: an unclosed string whose every character scans as a string
fragment raises "unterminated string" with the line number of the line
containing the opening quote — at line 1 for `"abc`, and at line 2 when the
quote follows `x\n` (the opening quote there sits at offset 2, on line 2). -/
theorem c6_unterminated_line :
    lexAll "f.nl" "\"abc" =
      .error (.lexDiag ⟨"unterminated string".toList, "\"abc".toList,
                        "f.nl".toList, 1, -1, 0⟩) ∧
    lexAll "f.nl" "x\n\"abc" =
      .error (.lexDiag ⟨"unterminated string".toList, "\"abc".toList,
                        "f.nl".toList, 2, 0, 1⟩) ∧
    linenoAt "x\n\"abc".toList 2 = 2 :=
  ⟨rfl, rfl, rfl⟩

/-- C7 counterexample: the ParseError for the rejected first token of `";"`
(a SEMICOLON at 1-based column 1) carries the hard-coded filename `<input>`,
not the supplied `test.nl`, and the 0-based half-open column range (0, 1),
not a 1-based one. -/
theorem c7_filename_and_columns :
    pipeline "test.nl" ";" =
      .error (.parseDiag ⟨";".toList, "<input>".toList, 1, 0, 1⟩) ∧
    "<input>".toList ≠ "test.nl".toList :=
  ⟨rfl, by decide⟩

/-- C8: every Function node in a successfully parsed Program has
pairwise-distinct parameter names — vacuously so: a successfully parsed
Program contains no Function node at all, because the `function` productions
consume the `FUNCTION` symbol, which is absent from `TOKENS` (rply compiles
it as a production-less nonterminal with no action entries) and which the
lexer never produces.  In particular `def f(a, a) { }` does not parse to
`Function("f", ["a", "a"], [])`: it does not parse at all, failing with a
ParseError on its first token.  (The `arglist` production itself performs no
uniqueness check, but no receivable input can exercise it.) -/
theorem c8_no_function_nodes :
    (∀ (fname s : String) (prog : Ast), pipeline fname s = .ok prog →
      prog.noFunc = true) ∧
    pipeline "f.nl" "def f(a, a) { }" =
      .error (.parseDiag ⟨"def f(a, a) { }".toList, "<input>".toList, 1, 0, 3⟩) :=
  ⟨pipeline_noFunc, rfl⟩

/-- C8 witness: a program that does parse — `class A { }` — and its
function-free tree. -/
theorem c8_class_program :
    pipeline "f.nl" "class A { }" = .ok (.program [classATree]) ∧
    Ast.noFunc (.program [classATree]) = true :=
  ⟨rfl, c8_no_function_nodes.1 "f.nl" "class A { }" (.program [classATree]) rfl⟩

/-- C9 counterexample: inside a string literal, the backslash-prefixed
sequence `\x` followed by a non-hex character raises a LexError
("unrecognized token"): `"\xq"` does not lex. -/
theorem c9_esc_hex_error :
    lexAll "f.nl" "\"\\xq\"" =
      .error (.lexDiag ⟨"unrecognized token".toList, "\"\\xq\"".toList,
                        "f.nl".toList, 1, 0, 1⟩) := rfl

/-- C4: `a\nb` lexes as IDENTIFIER("a"), SEMICOLON, IDENTIFIER("b");
`a +\nb` lexes as IDENTIFIER, PLUS, IDENTIFIER with no inserted terminator;
and in general, for skipped whitespace containing a newline, a synthetic
SEMICOLON is emitted exactly when the previously emitted token's kind is one
of closing-brace, closing-parenthesis, identifier, integer-literal. -/
theorem c4_newline_termination :
    (lexAll "f.nl" "a\nb").map (List.map fun t => (t.name, t.value)) =
      .ok [(TokKind.IDENTIFIER, "a".toList), (TokKind.SEMICOLON, "\n".toList),
           (TokKind.IDENTIFIER, "b".toList)] ∧
    (lexAll "f.nl" "a +\nb").map (List.map fun t => (t.name, t.value)) =
      .ok [(TokKind.IDENTIFIER, "a".toList), (TokKind.PLUS, "+".toList),
           (TokKind.IDENTIFIER, "b".toList)] ∧
    termKinds = [.RIGHT_CURLY_BRACE, .RIGHT_PAREN, .IDENTIFIER, .INTEGER] ∧
    (∀ (k : TokKind) (ws : Str), '\n' ∈ ws →
      (wsAction (some k) ws = .emitSemi ↔ k ∈ termKinds)) := by
  refine ⟨rfl, rfl, rfl, fun k ws h => ?_⟩
  by_cases hk : k ∈ termKinds <;> simp [wsAction, h, hk]

/-- C4 witness: concrete instance of the general part, at the trailing kind
`PLUS` and whitespace `"\n"`. -/
theorem c4_plus_not_terminator :
    wsAction (some TokKind.PLUS) ['\n'] = .emitSemi ↔ TokKind.PLUS ∈ termKinds :=
  c4_newline_termination.2.2.2 TokKind.PLUS ['\n'] (by decide)

/-- C9 amended: a backslash followed by any character outside
`{a,b,f,n,r,t,v,0,x,u,",\}` matches `ESC_UNRECOGNISED` and is passed through
literally as the backslash plus that character (so `"\q"` lexes to a STRING
token with value `\q`); but `\x` not followed by two hex digits matches no
string rule at all, which raises the "unrecognized token" LexError. -/
theorem c9_unrecognised_passthrough :
    (lexAll "f.nl" "\"\\q\"").map (List.map fun t => (t.name, t.value)) =
      .ok [(TokKind.STRING, "\\q".toList)] ∧
    (∀ (c : Char) (rest : Str), c ∉ escExcluded →
      matchStringRule ('\\' :: c :: rest) = some (.escUnrec, ['\\', c]) ∧
      decodeFragment .escUnrec ['\\', c] = some ['\\', c]) ∧
    matchStringRule ['\\', 'x', 'q', '"'] = none := by
  refine ⟨rfl, fun c rest h => ?_, rfl⟩
  have h' := h
  simp only [escExcluded, List.mem_cons, List.not_mem_nil, or_false, not_or] at h'
  obtain ⟨ha, hb, hf, hn, hr, ht, hv, h0, hx, hu, hq, hbs⟩ := h'
  have e1 : twoCharRule '\\' '"' ('\\' :: c :: rest) = none := by
    simp [twoCharRule, hq]
  have e2 : twoCharRule '\\' '\\' ('\\' :: c :: rest) = none := by
    simp [twoCharRule, hbs]
  have e3 : escSimpleRule ('\\' :: c :: rest) = none := by
    simp [escSimpleRule, ha, hb, hf, hn, hr, ht, hv, h0]
  have e4 : escHex8Rule ('\\' :: c :: rest) = none := by
    match rest with
    | [] => rfl
    | [x] => rfl
    | x :: y :: t => simp [escHex8Rule, hx]
  have e5 : escHex16Rule ('\\' :: c :: rest) = none := by
    match rest with
    | [] => rfl
    | [x] => rfl
    | [x, y] => rfl
    | [x, y, z] => rfl
    | x :: y :: z :: w :: t => simp [escHex16Rule, hu]
  have e6 : escHexAnyRule ('\\' :: c :: rest) = none := by
    unfold escHexAnyRule
    split
    · next t heq =>
      exfalso
      injection heq with heq1 heq2
      injection heq2 with heq3 heq4
      exact hu heq3
    · rfl
  refine ⟨?_, rfl⟩
  simp [matchStringRule, STRING_RULES, firstMatch, e1, e2, e3, e4, e5, e6,
    escUnrecRule, escExcluded, ha, hb, hf, hn, hr, ht, hv, h0, hx, hu, hq, hbs]

/-- C9 witness: the general pass-through instantiated at `\q`. -/
theorem c9_passthrough_q :
    matchStringRule ['\\', 'q'] = some (.escUnrec, ['\\', 'q']) ∧
    decodeFragment .escUnrec ['\\', 'q'] = some ['\\', 'q'] :=
  c9_unrecognised_passthrough.2.1 'q' [] (by decide)

/-- C7 amended: a rejected token raises a ParseError whose diagnostic is
independent of the filename supplied to the invocation; `errorhandler` fills
in the offending token's source line text, the hard-coded filename
`<input>`, the token's 1-based line number, and the 0-based half-open column
range `[colno - 1, colno - 1 + len(value))` spanning the token — concretely,
for `class C log` the offending token `log` (line 1, column 9, length 3)
yields line text `class C log`, lineno 1, columns 8 to 11. -/
theorem c7_errorhandler_fields :
    (∀ (f1 f2 s : String) (d : PDiag),
      pipeline f1 s = .error (.parseDiag d) → pipeline f2 s = .error (.parseDiag d)) ∧
    (∀ (input : Str) (tok : Token),
      errorhandler input tok =
        ⟨(splitlines input).getD (tok.range.lineno - 1) [], "<input>".toList,
         tok.range.lineno, (tok.range.colno : Int) - 1,
         ((tok.range.colno : Int) - 1) + tok.value.length⟩) ∧
    pipeline "a.nl" "class C log" =
      .error (.parseDiag ⟨"class C log".toList, "<input>".toList, 1, 8, 11⟩) := by
  refine ⟨fun f1 f2 s d h => ?_, fun input tok => ?_, rfl⟩
  · unfold pipeline lexAll at h ⊢
    simp only [String.toList] at h ⊢
    cases hl : lexCore s.data with
    | ok segs => rw [hl] at h; exact h
    | error e => rw [hl] at h; cases e <;> simp at h
  · simp only [errorhandler, PDiag.mk.injEq, and_true, true_and]
    omega

/-- C7 witness: the filename-independence applied to the concrete erroneous
input with two different supplied filenames. -/
theorem c7_filename_independent :
    pipeline "b.nl" "class C log" =
      .error (.parseDiag ⟨"class C log".toList, "<input>".toList, 1, 8, 11⟩) :=
  c7_errorhandler_fields.1 "a.nl" "b.nl" "class C log" _ c7_errorhandler_fields.2.2

theorem length_takeWhile_le (p : Char → Bool) (l : Str) :
    (l.takeWhile p).length ≤ l.length := by
  induction l with
  | nil => simp
  | cons c cs ih =>
    by_cases h : p c
    · simpa [List.takeWhile_cons, h] using ih
    · simp [List.takeWhile_cons, h]

theorem takeWhile_dropWhile_nil (p : Char → Bool) (l : Str) :
    (l.dropWhile p).takeWhile p = [] := by
  induction l with
  | nil => rfl
  | cons c cs ih =>
    by_cases h : p c
    · simpa [List.dropWhile_cons, h] using ih
    · simp [List.dropWhile_cons, List.takeWhile_cons, h]

theorem drop_length_takeWhile (p : Char → Bool) (l : Str) :
    l.drop (l.takeWhile p).length = l.dropWhile p := by
  induction l with
  | nil => rfl
  | cons c cs ih =>
    by_cases h : p c <;> simp [List.takeWhile_cons, List.dropWhile_cons, h, ih]

/-- Soundness of an anchored matcher: any match is nonempty and fits in the
remaining input. -/
def MatcherOK (m : Str → Option Str) : Prop :=
  ∀ rest text, m rest = some text → 0 < text.length ∧ text.length ≤ rest.length

theorem litRule_ok (c : Char) : MatcherOK (litRule c) := by
  intro rest text h
  match rest with
  | [] => simp [litRule] at h
  | c' :: cs =>
    simp only [litRule] at h
    split at h
    · injection h with h'
      subst h'
      exact ⟨by simp, by simp⟩
    · simp at h

theorem twoCharRule_ok (a b : Char) : MatcherOK (twoCharRule a b) := by
  intro rest text h
  match rest with
  | [] => simp [twoCharRule] at h
  | [x] => simp [twoCharRule] at h
  | x :: y :: t =>
    simp only [twoCharRule] at h
    split at h
    · injection h with h'
      subst h'
      refine ⟨by simp, by simp⟩
    · simp at h

theorem digitRule_ok : MatcherOK digitRule := by
  intro rest text h
  match rest with
  | [] => simp [digitRule] at h
  | c :: cs =>
    simp only [digitRule] at h
    split at h
    · injection h with h'
      subst h'
      refine ⟨by simp [List.takeWhile_cons, *], length_takeWhile_le _ _⟩
    · simp at h

theorem identRule_ok : MatcherOK identRule := by
  intro rest text h
  match rest with
  | [] => simp [identRule] at h
  | c :: cs =>
    simp only [identRule] at h
    split at h
    · next hstart =>
      injection h with h'
      subst h'
      refine ⟨?_, length_takeWhile_le _ _⟩
      have hc : isIdentChar c = true := by
        simp only [isIdentStart, Bool.or_eq_true, decide_eq_true_eq] at hstart
        rcases hstart with h1 | h1 <;> simp [isIdentChar, h1]
      simp [List.takeWhile_cons, hc]
    · simp at h

theorem escSimpleRule_ok : MatcherOK escSimpleRule := by
  intro rest text h
  match rest with
  | [] => simp [escSimpleRule] at h
  | [x] => simp [escSimpleRule] at h
  | x :: y :: t =>
    simp only [escSimpleRule] at h
    split at h
    · injection h with h'
      subst h'
      exact ⟨by simp, by simp⟩
    · simp at h

theorem escHex8Rule_ok : MatcherOK escHex8Rule := by
  intro rest text h
  match rest with
  | [] => simp [escHex8Rule] at h
  | [x] => simp [escHex8Rule] at h
  | [x, y] => simp [escHex8Rule] at h
  | [x, y, z] => simp [escHex8Rule] at h
  | x :: y :: z :: w :: t =>
    simp only [escHex8Rule] at h
    split at h
    · injection h with h'
      subst h'
      exact ⟨by simp, by simp⟩
    · simp at h

theorem escHex16Rule_ok : MatcherOK escHex16Rule := by
  intro rest text h
  match rest with
  | [] => simp [escHex16Rule] at h
  | [x] => simp [escHex16Rule] at h
  | [x, y] => simp [escHex16Rule] at h
  | [x, y, z] => simp [escHex16Rule] at h
  | [x, y, z, w] => simp [escHex16Rule] at h
  | [x, y, z, w, v] => simp [escHex16Rule] at h
  | x :: y :: z :: w :: v :: u :: t =>
    simp only [escHex16Rule] at h
    split at h
    · injection h with h'
      subst h'
      refine ⟨by simp, ?_⟩
      simp only [List.length_cons, List.length_nil]
      omega
    · simp at h

theorem escHexAnyRule_ok : MatcherOK escHexAnyRule := by
  intro rest text h
  unfold escHexAnyRule at h
  split at h
  · split at h
    · next hg =>
      injection h with h'
      subst h'
      obtain ⟨hne, hcl⟩ := hg
      rename_i t
      have hlt : (t.takeWhile isHexDigit).length < t.length := by
        rcases Nat.lt_or_ge (t.takeWhile isHexDigit).length t.length with hlt | hge
        · exact hlt
        · exfalso
          have hd : t.drop (t.takeWhile isHexDigit).length = [] :=
            List.drop_eq_nil_of_le hge
          rw [hd] at hcl
          simp at hcl
      refine ⟨by simp, ?_⟩
      simp only [List.length_cons, List.length_append, List.length_nil]
      omega
    · simp at h
  · simp at h

theorem escUnrecRule_ok : MatcherOK escUnrecRule := by
  intro rest text h
  match rest with
  | [] => simp [escUnrecRule] at h
  | [x] => simp [escUnrecRule] at h
  | x :: y :: t =>
    simp only [escUnrecRule] at h
    split at h
    · injection h with h'
      subst h'
      exact ⟨by simp, by simp⟩
    · simp at h

theorem charRule_ok : MatcherOK charRule := by
  intro rest text h
  match rest with
  | [] => simp [charRule] at h
  | c :: cs =>
    simp only [charRule] at h
    split at h
    · injection h with h'
      subst h'
      exact ⟨by simp, by simp⟩
    · simp at h

theorem firstMatch_pos {κ : Type} (rs : List (κ × (Str → Option Str)))
    (hOK : ∀ p ∈ rs, MatcherOK p.2) (rest : Str) (k : κ) (text : Str)
    (h : firstMatch rs rest = some (k, text)) :
    0 < text.length ∧ text.length ≤ rest.length := by
  induction rs with
  | nil => simp [firstMatch] at h
  | cons p ps ih =>
    obtain ⟨kk, m⟩ := p
    simp only [firstMatch] at h
    cases hm : m rest with
    | some t2 =>
      rw [hm] at h
      injection h with h'
      injection h' with h1 h2
      subst h2
      exact hOK _ (List.mem_cons_self _ _) rest t2 hm
    | none =>
      rw [hm] at h
      exact ih (fun q hq => hOK q (List.mem_cons_of_mem _ hq)) h

theorem RULES_ok : ∀ p ∈ RULES, MatcherOK p.2 := by
  intro p hp
  simp only [RULES, List.mem_cons, List.not_mem_nil, or_false] at hp
  rcases hp with rfl | rfl | rfl | rfl | rfl | rfl | rfl | rfl | rfl | rfl | rfl | rfl |
    rfl | rfl | rfl | rfl | rfl <;>
    first
      | exact digitRule_ok
      | exact identRule_ok
      | exact litRule_ok _
      | exact twoCharRule_ok _ _

theorem STRING_RULES_ok : ∀ p ∈ STRING_RULES, MatcherOK p.2 := by
  intro p hp
  simp only [STRING_RULES, List.mem_cons, List.not_mem_nil, or_false] at hp
  rcases hp with rfl | rfl | rfl | rfl | rfl | rfl | rfl | rfl | rfl <;>
    first
      | exact twoCharRule_ok _ _
      | exact escSimpleRule_ok
      | exact escHex8Rule_ok
      | exact escHex16Rule_ok
      | exact escHexAnyRule_ok
      | exact escUnrecRule_ok
      | exact charRule_ok
      | exact litRule_ok _

/-- Any successful main-rule match is nonempty and fits in the remaining
input. -/
theorem matchRule_pos (rest : Str) (k : TokKind) (text : Str)
    (h : matchRule rest = some (k, text)) :
    0 < text.length ∧ text.length ≤ rest.length :=
  firstMatch_pos RULES RULES_ok rest k text h

/-- Any successful string-rule match is nonempty and fits in the remaining
input. -/
theorem matchStringRule_pos (rest : Str) (k : StrKind) (text : Str)
    (h : matchStringRule rest = some (k, text)) :
    0 < text.length ∧ text.length ≤ rest.length :=
  firstMatch_pos STRING_RULES STRING_RULES_ok rest k text h

/-- A closed string scan strictly grows `len` and stays inside the input:
the final span of the string token fits in the source. -/
theorem stringScan_closed_bound (fuel : Nat) : ∀ (s : Str) (i : Nat) (acc : Str)
    (len : Nat) (v : Str) (L : Nat),
    stringScan fuel s i acc len = .closed v L →
    len < L ∧ i + (L - len) ≤ s.length := by
  induction fuel with
  | zero => intro s i acc len v L h; simp [stringScan] at h
  | succ n ih =>
    intro s i acc len v L h
    simp only [stringScan] at h
    split at h
    · simp at h
    · split at h
      · simp at h
      · next k raw hm =>
        have hpos := matchStringRule_pos (s.drop i) k raw hm
        rw [List.length_drop] at hpos
        split at h
        · injection h with h1 h2
          subst h1 h2
          rename_i hi _
          omega
        · have := ih s (i + raw.length) _ (len + raw.length) v L h
          omega

/-- After a token has been emitted, `_last_token` is never `None` again, so
the newline dereference crash cannot occur. -/
theorem lexLoop_some_no_crash (fuel : Nat) : ∀ (s : Str) (idx : Nat) (k : TokKind),
    lexLoop fuel s idx (some k) ≠ .error .noneCrash := by
  induction fuel with
  | zero => intro s idx k h; simp [lexLoop] at h
  | succ n ih =>
    intro s idx k h
    simp only [lexLoop] at h
    split at h
    · simp at h
    · split at h
      · split at h
        · next heq =>
          simp only [wsAction] at heq
          split at heq
          · split at heq <;> simp at heq
          · simp at heq
        · next heq =>
          cases hle : lexLoop n s (idx + ((s.drop idx).takeWhile isSpace).length) (some k) <;>
            rw [hle] at h <;> simp [Except.map] at h
          subst h
          exact ih _ _ _ hle
        · next heq =>
          cases hle : lexLoop n s (idx + ((s.drop idx).takeWhile isSpace).length)
              (some .SEMICOLON) <;>
            rw [hle] at h <;> simp [Except.map] at h
          subst h
          exact ih _ _ _ hle
      · split at h
        · simp at h
        · split at h
          · split at h
            · next val len hs =>
              cases hle : lexLoop n s (idx + len) (some .STRING) <;>
                rw [hle] at h <;> simp [Except.map] at h
              subst h
              exact ih _ _ _ hle
            · simp at h
            · simp at h
            · simp at h
          · next k' text hm hne =>
            cases hle : lexLoop n s (idx + text.length) (some ((keywordKind text).getD k')) <;>
              rw [hle] at h <;> simp [Except.map] at h
            subst h
            exact ih _ _ _ hle

/-- With no whitespace at the current offset, a step from a `None` last
token cannot crash either (the whitespace branch is not taken). -/
theorem lexLoop_nows_no_crash (n : Nat) (s : Str) (idx : Nat)
    (hws : (s.drop idx).takeWhile isSpace = []) :
    lexLoop (n + 1) s idx none ≠ .error .noneCrash := by
  intro h
  simp only [lexLoop] at h
  split at h
  · simp at h
  · rw [if_neg (by simp [hws])] at h
    split at h
    · simp at h
    · next k' text hm =>
      split at h
      · split at h
        · next val len hs =>
          cases hle : lexLoop n s (idx + len) (some .STRING) <;>
            rw [hle] at h <;> simp [Except.map] at h
          subst h
          exact lexLoop_some_no_crash n s (idx + len) _ hle
        · simp at h
        · simp at h
        · simp at h
      · cases hle : lexLoop n s (idx + text.length) (some ((keywordKind text).getD k')) <;>
          rw [hle] at h <;> simp [Except.map] at h
        subst h
        exact lexLoop_some_no_crash n s _ _ hle

/-- The `_last_token = None` dereference crash happens exactly when the
input's leading whitespace run contains a newline. -/
theorem lexCore_crash_iff (s : Str) :
    lexCore s = .error .noneCrash ↔ '\n' ∈ s.takeWhile isSpace := by
  constructor
  · intro h
    by_contra hn
    rcases eq_or_ne (s.takeWhile isSpace) [] with hws | hws
    · exact lexLoop_nows_no_crash s.length s 0 (by simpa using hws) (by simpa [lexCore] using h)
    · have hlen : ¬ (0 ≥ s.length) := by
        rcases s with _ | ⟨c, cs⟩
        · simp at hws
        · simp
      rw [lexCore] at h
      simp only [lexLoop] at h
      rw [if_neg hlen] at h
      simp only [List.drop_zero] at h
      rw [if_pos hws] at h
      have hwa : wsAction none (s.takeWhile isSpace) = .skipRun := by
        simp [wsAction, hn]
      rw [hwa] at h
      have hpos : 0 < s.length := by omega
      obtain ⟨m, hm⟩ : ∃ m, s.length = m + 1 := ⟨s.length - 1, by omega⟩
      cases hle : lexLoop s.length s (0 + (s.takeWhile isSpace).length) none <;>
        rw [hle] at h <;> simp [Except.map] at h
      subst h
      rw [hm] at hle
      refine lexLoop_nows_no_crash m s (0 + (s.takeWhile isSpace).length) ?_ hle
      simp only [Nat.zero_add]
      rw [drop_length_takeWhile]
      exact takeWhile_dropWhile_nil _ _
  · intro h
    have hne : s.takeWhile isSpace ≠ [] := by
      intro he
      rw [he] at h
      simp at h
    have hlen : ¬ (0 ≥ s.length) := by
      rcases s with _ | ⟨c, cs⟩
      · simp at hne
      · simp
    rw [lexCore]
    simp only [lexLoop]
    rw [if_neg hlen]
    simp only [List.drop_zero]
    rw [if_pos hne]
    have hwa : wsAction none (s.takeWhile isSpace) = .noneCrash := by
      simp [wsAction, h]
    rw [hwa]

/-- C3 amended: a lex+parse invocation does not always return a Program or
raise a single Diagnostic — two non-Diagnostic crashes are reachable.  The
lexer dereferences the still-None `_last_token` exactly when the input's
leading whitespace run contains a newline (no token emitted yet); and when
the token stream is exhausted mid-parse, as on `class C {`, the parser's
error handler crashes reading the source position of rply's position-less
`$end` token.  The parser's failing string assert, by contrast, is
unreachable from the start symbol: no invocation ends in it, and in
particular a program containing the empty string literal `""` fails with an
ordinary ParseError. -/
theorem c3_failure_modes :
    (∀ (fname s : String),
      pipeline fname s = .error .lexCrash ↔ '\n' ∈ s.toList.takeWhile isSpace) ∧
    pipeline "f.nl" "class C \x7b" = .error .parseEofCrash ∧
    (∀ (fname s : String), pipeline fname s ≠ .error .assertFail) ∧
    pipeline "f.nl" "\"\"" =
      .error (.parseDiag ⟨"\"\"".toList, "<input>".toList, 1, 0, 0⟩) := by
  refine ⟨fun fname s => ?_, rfl, pipeline_no_assert, rfl⟩
  rw [← lexCore_crash_iff]
  unfold pipeline lexAll
  cases hl : lexCore s.toList with
  | ok segs =>
    cases hp : parseProgram s.data (tokensOfSegs segs) with
    | ok a => simp [hp]
    | error e => cases e <;> simp [hp, liftPFail]
  | error e => cases e <;> simp

/-- C3 witness: the crash characterisation applied at the concrete input
`"\na"` with leading-newline whitespace. -/
theorem c3_crash_at_leading_ws :
    '\n' ∈ "\na".toList.takeWhile isSpace ∧ pipeline "w.nl" "\na" = .error .lexCrash :=
  ⟨by decide, (c3_failure_modes.1 "w.nl" "\na").mpr (by decide)⟩

/-- A successful lex from `idx` produces spans that exactly tile
`[idx, |s|)`. -/
theorem lexLoop_tiles (fuel : Nat) : ∀ (s : Str) (idx : Nat) (last : Option TokKind)
    (segs : List Seg), lexLoop fuel s idx last = .ok segs → idx ≤ s.length →
    segsTile idx s.length segs = true := by
  induction fuel with
  | zero => intro s idx last segs h _; simp [lexLoop] at h
  | succ n ih =>
    intro s idx last segs h hle
    simp only [lexLoop] at h
    split at h
    · next hge =>
      injection h with h'
      subst h'
      have hij : idx = s.length := by omega
      simp [segsTile, hij]
    · next hlt =>
      split at h
      · next hws =>
        have hw1 : 0 < ((s.drop idx).takeWhile isSpace).length :=
          List.length_pos.mpr hws
        have hw2 : ((s.drop idx).takeWhile isSpace).length ≤ s.length - idx := by
          have h' := length_takeWhile_le isSpace (s.drop idx)
          rwa [List.length_drop] at h'
        split at h
        · simp at h
        · next heq =>
          cases hle2 : lexLoop n s (idx + ((s.drop idx).takeWhile isSpace).length) last <;>
            rw [hle2] at h <;> simp [Except.map] at h
          subst h
          have ht := ih s _ _ _ hle2 (by omega)
          simp only [segsTile, Seg.start, Seg.stop, Bool.and_eq_true, beq_iff_eq,
            decide_eq_true_eq]
          exact ⟨⟨by trivial, by omega⟩, ht⟩
        · next heq =>
          cases hle2 : lexLoop n s (idx + ((s.drop idx).takeWhile isSpace).length)
              (some .SEMICOLON) <;>
            rw [hle2] at h <;> simp [Except.map] at h
          subst h
          have ht := ih s _ _ _ hle2 (by omega)
          simp only [segsTile, Seg.start, Seg.stop, Bool.and_eq_true, beq_iff_eq,
            decide_eq_true_eq]
          exact ⟨⟨by trivial, by omega⟩, ht⟩
      · next hws =>
        split at h
        · simp at h
        · next k' text hm =>
          have hpos := matchRule_pos (s.drop idx) k' text hm
          rw [List.length_drop] at hpos
          split at h
          · split at h
            · next val len hs =>
              have hb := stringScan_closed_bound n s (idx + 1) [] 1 val len hs
              cases hle2 : lexLoop n s (idx + len) (some .STRING) <;>
                rw [hle2] at h <;> simp [Except.map] at h
              subst h
              have ht := ih s _ _ _ hle2 (by omega)
              simp only [segsTile, Seg.start, Seg.stop, Bool.and_eq_true, beq_iff_eq,
                decide_eq_true_eq]
              exact ⟨⟨by trivial, by omega⟩, ht⟩
            · simp at h
            · simp at h
            · simp at h
          · cases hle2 : lexLoop n s (idx + text.length)
                (some ((keywordKind text).getD k')) <;>
              rw [hle2] at h <;> simp [Except.map] at h
            subst h
            have ht := ih s _ _ _ hle2 (by omega)
            simp only [segsTile, Seg.start, Seg.stop, Bool.and_eq_true, beq_iff_eq,
              decide_eq_true_eq]
            exact ⟨⟨by trivial, by omega⟩, ht⟩

theorem segsTile_le (segs : List Seg) : ∀ i j, segsTile i j segs = true → i ≤ j := by
  induction segs with
  | nil =>
    intro i j h
    simp only [segsTile, beq_iff_eq] at h
    omega
  | cons sg rest ih =>
    intro i j h
    simp only [segsTile, Bool.and_eq_true, beq_iff_eq, decide_eq_true_eq] at h
    obtain ⟨⟨h1, h2⟩, h3⟩ := h
    have := ih _ _ h3
    omega

theorem segsTile_join (segs : List Seg) : ∀ (s : Str) (i j : Nat),
    segsTile i j segs = true → j ≤ s.length →
    (segs.map (segSlice s)).flatten = (s.take j).drop i := by
  induction segs with
  | nil =>
    intro s i j h hj
    simp only [segsTile, beq_iff_eq] at h
    subst h
    simp [List.drop_take]
  | cons sg rest ih =>
    intro s i j h hj
    simp only [segsTile, Bool.and_eq_true, beq_iff_eq, decide_eq_true_eq] at h
    obtain ⟨⟨h1, h2⟩, h3⟩ := h
    have hstop_le : sg.stop ≤ j := segsTile_le rest _ _ h3
    have hIH := ih s sg.stop j h3 hj
    simp only [List.map_cons, List.flatten_cons]
    rw [hIH]
    unfold segSlice
    rw [h1]
    rw [List.drop_take, List.drop_take, List.drop_take]
    have hdd : s.drop sg.stop = (s.drop i).drop (sg.stop - i) := by
      rw [List.drop_drop]
      congr 1
      omega
    rw [hdd]
    have hsum : j - i = (sg.stop - i) + (j - sg.stop) := by omega
    rw [hsum, List.take_add]

/-- C10: for an input that lexes with no lexical error, the consumed spans
(tokens, including synthetic SEMICOLON and STRING tokens, plus skipped
whitespace) exactly tile `[0, |source|)` — hence they are pairwise
non-overlapping, monotonically increasing, and concatenating the source text
of every span in order reconstructs the source exactly. -/
theorem c10_lossless_coverage :
    ∀ (s : String) (segs : List Seg), lexCore s.toList = .ok segs →
    segsTile 0 s.toList.length segs = true ∧
    (segs.map (segSlice s.toList)).flatten = s.toList := by
  intro s segs h
  have ht := lexLoop_tiles (s.toList.length + 1) s.toList 0 none segs h (Nat.zero_le _)
  refine ⟨ht, ?_⟩
  have hj := segsTile_join segs s.toList 0 s.toList.length ht (le_refl _)
  rw [List.drop_zero, List.take_length] at hj
  exact hj

/-- C10 witness: the coverage theorem applied to the concrete input
`a\n"b" 1`, whose spans are IDENTIFIER `[0,1)`, synthetic SEMICOLON `[1,2)`,
STRING `[2,5)`, skipped whitespace `[5,6)`, INTEGER `[6,7)`. -/
theorem c10_coverage_example :
    segsTile 0 ("a\n\"b\" 1".toList.length)
      [Seg.tok ⟨.IDENTIFIER, ['a'], ⟨0, 1, 1, 1⟩⟩,
       Seg.tok ⟨.SEMICOLON, ['\n'], ⟨1, 2, 1, 2⟩⟩,
       Seg.tok ⟨.STRING, ['b'], ⟨2, 5, 2, 1⟩⟩,
       Seg.ws 5 6,
       Seg.tok ⟨.INTEGER, ['1'], ⟨6, 7, 2, 5⟩⟩] = true ∧
    (([Seg.tok ⟨.IDENTIFIER, ['a'], ⟨0, 1, 1, 1⟩⟩,
       Seg.tok ⟨.SEMICOLON, ['\n'], ⟨1, 2, 1, 2⟩⟩,
       Seg.tok ⟨.STRING, ['b'], ⟨2, 5, 2, 1⟩⟩,
       Seg.ws 5 6,
       Seg.tok ⟨.INTEGER, ['1'], ⟨6, 7, 2, 5⟩⟩] : List Seg).map
        (segSlice "a\n\"b\" 1".toList)).flatten = "a\n\"b\" 1".toList :=
  c10_lossless_coverage "a\n\"b\" 1"
    [Seg.tok ⟨.IDENTIFIER, ['a'], ⟨0, 1, 1, 1⟩⟩,
     Seg.tok ⟨.SEMICOLON, ['\n'], ⟨1, 2, 1, 2⟩⟩,
     Seg.tok ⟨.STRING, ['b'], ⟨2, 5, 2, 1⟩⟩,
     Seg.ws 5 6,
     Seg.tok ⟨.INTEGER, ['1'], ⟨6, 7, 2, 5⟩⟩] rfl

end Nolang
